import Mathlib

/-!
Verification development for the multi-dataset dashboard (src/app.py).

The per-dataset filter-and-aggregate pipelines are shallowly embedded:
pandas DataFrames become lists of per-dataset row structures, pandas
Series operations become list functions, missing values (NaN/NaT) become
`Option`/`Cell.null`, numeric values become `ℚ`, and operations that can
raise become `Except`/explicit error constructors.  Pandas behaviours
modelled here and relied on by the theorems:

* `Series.isin(values)` is elementwise membership; a missing value never
  matches a list of non-missing values.
* `Series.value_counts()` drops missing values and sorts by count
  descending (tie order among equal counts is an implementation detail of
  the underlying sort and is not relied on); `.sort_index()` re-sorts by
  the distinct values ascending; `.iloc[0]` on an empty result raises an
  IndexError.
* `sorted(series.dropna().unique())` is the ascending sort of the
  distinct non-missing values.
* `groupby(k)[v].sum()` drops rows whose key is missing and skips missing
  values in the sum; `Series.nlargest(10)` keeps the first ten in a
  stable descending-by-value order.
* `Series.mean()` skips missing values and returns NaN when no value
  remains; Python then formats that NaN as the string "nan".
* `.str` accessors raise an AttributeError on a non-object (e.g. already
  parsed datetime) column; on an object column, non-string entries map to
  missing.
* `pd.to_datetime(_, format=..., errors=coerce)` turns parse failures
  into missing (NaT).
-/

/-! ## Definitions: the embedded data model and pipeline operations -/

/-- Distinct values of a list in order of first appearance, the order
`pandas.Series.unique` produces.  `seen` accumulates values already
emitted. -/
def dedupFirstAux {α : Type} [DecidableEq α] (seen : List α) : List α → List α
  | [] => []
  | x :: xs =>
    if x ∈ seen then dedupFirstAux seen xs
    else x :: dedupFirstAux (x :: seen) xs

def dedupFirst {α : Type} [DecidableEq α] (l : List α) : List α :=
  dedupFirstAux [] l

/-- Ascending sort, the model of Python `sorted`. -/
def sortAsc {α : Type} [LinearOrder α] (l : List α) : List α :=
  List.insertionSort (· ≤ ·) l

/-- `sorted(unique(dropna(column)))`: the candidate-value derivation
used by every plain filter dimension. -/
def sortedUnique {α : Type} [DecidableEq α] [LinearOrder α] (l : List α) : List α :=
  sortAsc (dedupFirst l)

/-- `Series.isin(values)` on one cell: a missing entry matches nothing. -/
def optMem {α : Type} [DecidableEq α] (o : Option α) (l : List α) : Bool :=
  match o with
  | some x => decide (x ∈ l)
  | none => false

/-- One row of the normalized video-game table.  `year`, `genre` and
`publisher` may be missing (NaN); `global_sales` is the numeric sales
column (missing sales are skipped by sums and means). -/
structure VgRow where
  year : Option Int
  genre : Option String
  publisher : Option String
  global_sales : Option ℚ
deriving DecidableEq

/-- `sorted(data[year].dropna().astype(int).unique())` -/
def candidateYears (t : List VgRow) : List Int :=
  sortedUnique (t.filterMap (·.year))

/-- `sorted(data[genre].dropna().unique())` -/
def candidateGenres (t : List VgRow) : List String :=
  sortedUnique (t.filterMap (·.genre))

/-- `data.groupby(publisher)[global_sales].sum()`: keys are the distinct
non-missing publishers sorted ascending (groupby sorts keys), values the
sums of their non-missing sales. -/
def publisherSums (t : List VgRow) : List (String × ℚ) :=
  (sortedUnique (t.filterMap (·.publisher))).map fun p =>
    (p, (t.filterMap fun r =>
      if r.publisher = some p then r.global_sales else none).sum)

/-- `.nlargest(10).index.tolist()`: stable descending sort by summed
sales, first ten keys. -/
def topPublishers (t : List VgRow) : List String :=
  ((List.insertionSort (fun a b : String × ℚ => b.2 ≤ a.2) (publisherSums t)).take 10).map
    Prod.fst

/-- The derived `publisher_filtered` column:
`lambda x: x if x in top_publishers else Others` (a missing publisher is
not in the top list, hence falls into the catch-all bucket). -/
def publisherFiltered (top : List String) : Option String → String
  | some x => if x ∈ top then x else "Others"
  | none => "Others"

/-- `sorted(list(set(top_publishers + [Others])))` -/
def vgPublisherOptions (t : List VgRow) : List String :=
  sortedUnique (topPublishers t ++ ["Others"])

/-- The three multiselect values for the video-game dataset. -/
structure VgSel where
  years : List Int
  genres : List String
  publishers : List String
deriving DecidableEq

/-- The empty-selection fallbacks: `if not selected_xs: selected_xs = xs`. -/
def vgEff (t : List VgRow) (s : VgSel) : VgSel where
  years := if s.years.isEmpty then candidateYears t else s.years
  genres := if s.genres.isEmpty then candidateGenres t else s.genres
  publishers := if s.publishers.isEmpty then vgPublisherOptions t else s.publishers

/-- `df_filtered`: conjunction of the three `isin` restrictions, the
publisher one over the derived bucketed column. -/
def vgFilter (t : List VgRow) (s : VgSel) : List VgRow :=
  t.filter fun r =>
    optMem r.year (vgEff t s).years && optMem r.genre (vgEff t s).genres &&
      decide (publisherFiltered (topPublishers t) r.publisher ∈ (vgEff t s).publishers)

/-- `Series.mean()`: skip missing values, NaN (here `none`) when no value
remains. -/
def meanOpt (l : List (Option ℚ)) : Option ℚ :=
  let vs := l.filterMap id
  if vs.isEmpty then none else some (vs.sum / vs.length)

/-- Round to the nearest integer, ties to even, as Python float
formatting does. -/
def roundHalfEven (q : ℚ) : Int :=
  let f := ⌊q⌋
  let r := q - f
  if r < 1 / 2 then f
  else if 1 / 2 < r then f + 1
  else if f % 2 = 0 then f else f + 1

/-- Left-pad the decimal digits of `n` with zeros to `prec` digits. -/
def padZeros (prec : Nat) (n : Nat) : String :=
  let s := toString n
  String.mk (List.replicate (prec - s.length) '0') ++ s

/-- Python fixed-point formatting `f"{q:.prec}f"` for an actual number
(the sign of a negative zero is not modelled). -/
def fmtFixed (prec : Nat) (q : ℚ) : String :=
  let scaled := roundHalfEven (q * (10 ^ prec : ℚ))
  let sign := if scaled < 0 then "-" else ""
  let a := scaled.natAbs
  sign ++ toString (a / 10 ^ prec) ++
    (if prec = 0 then "" else "." ++ padZeros prec (a % 10 ^ prec))

/-- `avg_sales_per_game = df_filtered[global_sales].mean()` -/
def avgSalesPerGame (df : List VgRow) : Option ℚ :=
  meanOpt (df.map (·.global_sales))

/-- The string handed to the metric renderer by
`col2.metric(..., f"{avg_sales_per_game:.2f}")`; a NaN mean formats as
"nan". -/
def avgSalesPerGameText (df : List VgRow) : String :=
  match avgSalesPerGame df with
  | none => "nan"
  | some q => fmtFixed 2 q

/-- What a count-over-time chart slot delivers to the renderer: a line
series, a single scalar metric, an informational message, or a raised
exception. -/
inductive CountChart where
  | series (pts : List (Int × Nat))
  | metric (count : Nat)
  | message (text : String)
  | exn (text : String)
deriving DecidableEq

/-- `column.value_counts().sort_index()`: counts of the distinct
non-missing values, re-indexed ascending. -/
def valueCountsSortIndex (ys : List Int) : List (Int × Nat) :=
  (sortAsc (dedupFirst ys)).map fun y => (y, ys.count y)

/-- `column.value_counts()`: counts of the distinct non-missing values,
sorted by count descending (stable over first-appearance order; pandas
does not fix the tie order and no theorem below depends on it). -/
def valueCountsByFreq (ys : List Int) : List (Int × Nat) :=
  List.insertionSort (fun a b : Int × Nat => b.2 ≤ a.2)
    ((dedupFirst ys).map fun y => (y, ys.count y))

/-- Chart 3 of the video-game page (lines 175-192 of src/app.py): series
for more than one selected year, `value_counts().iloc[0]` for exactly
one (an IndexError when the filtered frame is empty), a prompt
otherwise. -/
def gamesPerYearChart (df : List VgRow) (selYears : List Int) : CountChart :=
  if 1 < selYears.length then
    .series (valueCountsSortIndex (df.filterMap (·.year)))
  else if selYears.length = 1 then
    match valueCountsByFreq (df.filterMap (·.year)) with
    | [] => .exn "IndexError: single positional indexer is out-of-bounds"
    | p :: _ => .metric p.2
  else .message "Select multiple years to see trend."

/-- The chart-3 pipeline: filter, then chart on the effective selected
years. -/
def vgChart3 (t : List VgRow) (s : VgSel) : CountChart :=
  gamesPerYearChart (vgFilter t s) (vgEff t s).years

/-- A calendar date as parsed from the day.month.year text format. -/
structure Date where
  year : Int
  month : Nat
  day : Nat
deriving DecidableEq

def isLeap (y : Int) : Bool :=
  y % 4 == 0 && (y % 100 != 0 || y % 400 == 0)

def daysInMonth (y : Int) (m : Nat) : Nat :=
  if m = 2 then (if isLeap y then 29 else 28)
  else if m = 4 ∨ m = 6 ∨ m = 9 ∨ m = 11 then 30
  else 31

/-- Day count of a date in the proleptic Gregorian calendar, with day 0 at
1970-01-01 (the value pandas exposes through `.dt.days` differences). -/
def Date.toDays (dt : Date) : Int :=
  let y : Int := if dt.month ≤ 2 then dt.year - 1 else dt.year
  let era : Int := (if 0 ≤ y then y else y - 399) / 400
  let yoe : Int := y - era * 400
  let mp : Int := ((dt.month : Int) + 9) % 12
  let doy : Int := (153 * mp + 2) / 5 + (dt.day : Int) - 1
  let doe : Int := yoe * 365 + yoe / 4 - yoe / 100 + doy
  era * 146097 + doe - 719468

/-- Split a character list at every dot, the relevant behaviour of
splitting a string on the separator of the day.month.year format. -/
def splitDots : List Char → List (List Char)
  | [] => [[]]
  | c :: cs =>
    let r := splitDots cs
    if c = '.' then [] :: r
    else
      match r with
      | [] => [[c]]
      | h :: t => (c :: h) :: t

/-- Numeric value of a nonempty all-digit character list. -/
def digitsVal (l : List Char) : Option Nat :=
  if l.isEmpty then none
  else if l.all Char.isDigit then
    some (l.foldl (fun acc c => acc * 10 + (c.toNat - 48)) 0)
  else none

/-- Parse the strict day.month.year format (`to_datetime` with
format=%d.%m.%Y): two-digit-at-most day, two-digit-at-most month,
four-digit year, and calendar validity; anything else fails (and the
caller coerces the failure to missing). -/
def parseDMY (s : String) : Option Date :=
  match splitDots s.data with
  | [d, m, y] =>
    match digitsVal d, digitsVal m, digitsVal y with
    | some dd, some mm, some yy =>
      if d.length ≤ 2 ∧ m.length ≤ 2 ∧ y.length = 4 ∧
          1 ≤ mm ∧ mm ≤ 12 ∧ 1 ≤ dd ∧ dd ≤ daysInMonth yy mm then
        some ⟨yy, mm, dd⟩
      else none
    | _, _, _ => none
  | _ => none

/-- `str.strip()` on one string: drop leading and trailing whitespace. -/
def stripStr (s : String) : String :=
  ⟨((s.data.dropWhile Char.isWhitespace).reverse.dropWhile Char.isWhitespace).reverse⟩

/-- One cell of a raw or partly normalized column: a string, a parsed
date, or missing (NaN/NaT). -/
inductive Cell where
  | str (s : String)
  | date (d : Date)
  | null
deriving DecidableEq

/-- The dtype a pandas column carries; the `.str` accessor only works on
an object column. -/
inductive ColDtype where
  | object
  | datetime
deriving DecidableEq

structure Column where
  dtype : ColDtype
  cells : List Cell
deriving DecidableEq

/-- `column.str.strip()`: raises on a datetime column; on an object
column strips strings and turns non-string entries into missing. -/
def strStripCol (c : Column) : Except String Column :=
  if c.dtype = ColDtype.datetime then
    .error "AttributeError: Can only use .str accessor with string values!"
  else
    .ok ⟨ColDtype.object, c.cells.map fun x =>
      match x with
      | .str s => .str (stripStr s)
      | _ => .null⟩

/-- `Series.replace(mapping)`: exact-value replacement on string cells. -/
def replaceVals (m : List (String × String)) (c : Column) : Column :=
  ⟨c.dtype, c.cells.map fun x =>
    match x with
    | .str s =>
      match m.lookup s with
      | some t => .str t
      | none => .str s
    | other => other⟩

/-- The status recoding applied to the `aktivs` column.  Note that the
canonical vocabulary it produces is {active, innactive} (sic). -/
def statusMap : List (String × String) :=
  [("jā", "active"), ("ir", "active"), ("nē", "innactive"), ("nav", "innactive")]

/-- `pd.to_datetime(column, format=%d.%m.%Y, errors=coerce)`: the result
is a datetime column; unparsable entries become missing. -/
def toDatetimeCol (c : Column) : Column :=
  ⟨ColDtype.datetime, c.cells.map fun x =>
    match x with
    | .str s =>
      match parseDMY s with
      | some d => .date d
      | none => .null
    | .date d => .date d
    | .null => .null⟩

/-- `.dt.year` of a datetime column: the year of each date, missing for
missing entries. -/
def yearsOfCol (c : Column) : List (Option Int) :=
  c.cells.map fun x =>
    match x with
    | .date d => some d.year
    | _ => none

/-- The columns of the tax table that the normalizer touches; the two
derived year columns do not exist (`none`) before normalization. -/
structure TaxFrame where
  aktivs : Column
  registrets : Column
  izslegts : Column
  registration_year : Option (List (Option Int)) := none
  deregistration_year : Option (List (Option Int)) := none
deriving DecidableEq

/-- The tax-dataset Column Normalizer (lines 212-225 of src/app.py):
strip and recode the status column, strip both date columns, parse them,
and derive the two year columns.  Each `.str` access can raise, and the
first raise aborts the run. -/
def normalizeTax (f : TaxFrame) : Except String TaxFrame :=
  match strStripCol f.aktivs with
  | .error e => .error e
  | .ok ak0 =>
    let ak := replaceVals statusMap ak0
    match strStripCol f.registrets with
    | .error e => .error e
    | .ok reg0 =>
      match strStripCol f.izslegts with
      | .error e => .error e
      | .ok iz0 =>
        let reg := toDatetimeCol reg0
        let iz := toDatetimeCol iz0
        .ok { aktivs := ak, registrets := reg, izslegts := iz,
              registration_year := some (yearsOfCol reg),
              deregistration_year := some (yearsOfCol iz) }

/-- `columns.str.lower()` on one label (the ASCII case mapping of
`Char.toLower`; the raw headers at issue are ASCII). -/
def lowerName (s : String) : String :=
  ⟨s.data.map Char.toLower⟩

/-- `columns.str.replace(space, underscore)` on one label (the pattern
is a single character, so this is a per-character replacement). -/
def underscoreName (s : String) : String :=
  ⟨s.data.map fun c => if c = ' ' then '_' else c⟩

/-- The whole column-name canonicalization:
`data.columns.str.lower().str.replace(space, underscore)`. -/
def vgNormalizeColumns (cols : List String) : List String :=
  cols.map fun s => underscoreName (lowerName s)

instance exceptDecEq {ε α : Type} [DecidableEq ε] [DecidableEq α] :
    DecidableEq (Except ε α) := fun x y =>
  match x, y with
  | .error e, .error f =>
    if h : e = f then isTrue (by subst h; rfl)
    else isFalse (fun hh => h (by cases hh; rfl))
  | .ok a, .ok b =>
    if h : a = b then isTrue (by subst h; rfl)
    else isFalse (fun hh => h (by cases hh; rfl))
  | .error _, .ok _ => isFalse (fun hh => Except.noConfusion hh)
  | .ok _, .error _ => isFalse (fun hh => Except.noConfusion hh)

/-- One row of the normalized tax table: recoded status, parsed
registration and deregistration dates, and the two derived year
columns. -/
structure TaxNRow where
  aktivs : Option String
  registrets : Option Date
  izslegts : Option Date
  registration_year : Option Int
  deregistration_year : Option Int
deriving DecidableEq

/-- The three multiselect values for the tax dataset. -/
structure TaxSel where
  statuses : List String
  regYears : List Int
  deregYears : List Int
deriving DecidableEq

def taxStatuses (t : List TaxNRow) : List String :=
  sortedUnique (t.filterMap (·.aktivs))

def taxRegYears (t : List TaxNRow) : List Int :=
  sortedUnique (t.filterMap (·.registration_year))

def taxDeregYears (t : List TaxNRow) : List Int :=
  sortedUnique (t.filterMap (·.deregistration_year))

/-- The empty-selection fallbacks of the tax branch. -/
def taxEff (t : List TaxNRow) (s : TaxSel) : TaxSel where
  statuses := if s.statuses.isEmpty then taxStatuses t else s.statuses
  regYears := if s.regYears.isEmpty then taxRegYears t else s.regYears
  deregYears := if s.deregYears.isEmpty then taxDeregYears t else s.deregYears

/-- `df_filtered` of the tax branch (lines 248-256 of src/app.py): the
status and registration-year restrictions, then — only when the literal
value "no" is among the selected statuses — the conditional
deregistration-year restriction that exempts active rows. -/
def taxFilter (t : List TaxNRow) (s : TaxSel) : List TaxNRow :=
  let e := taxEff t s
  let d1 := t.filter fun r =>
    optMem r.aktivs e.statuses && optMem r.registration_year e.regYears
  if "no" ∈ e.statuses then
    d1.filter fun r =>
      decide (r.aktivs = some "active") ||
        (decide (r.aktivs = some "innactive") &&
          optMem r.deregistration_year e.deregYears)
  else d1

/-- Chart 2 of the tax page (lines 286-299 of src/app.py), structurally
the same three-way branch as the games-per-year chart. -/
def regsOverTimeChart (df : List TaxNRow) (selRegYears : List Int) : CountChart :=
  if 1 < selRegYears.length then
    .series (valueCountsSortIndex (df.filterMap (·.registration_year)))
  else if selRegYears.length = 1 then
    match valueCountsByFreq (df.filterMap (·.registration_year)) with
    | [] => .exn "IndexError: single positional indexer is out-of-bounds"
    | p :: _ => .metric p.2
  else .message "Select multiple registration years to see trend."

def taxChart2 (t : List TaxNRow) (s : TaxSel) : CountChart :=
  regsOverTimeChart (taxFilter t s) (taxEff t s).regYears

/-- `inactive_df = df_filtered[df_filtered[aktivs] == innactive]` -/
def inactiveOf (df : List TaxNRow) : List TaxNRow :=
  df.filter fun r => decide (r.aktivs = some "innactive")

/-- The derived activity-duration column
`(izslegts - registrets).dt.days / 365.25` (in fractional years; missing
whenever either date is missing). -/
def activityDurations (rows : List TaxNRow) : List (Option ℚ) :=
  rows.map fun r =>
    match r.izslegts, r.registrets with
    | some a, some b => some (((a.toDays - b.toDays : Int) : ℚ) / (365.25 : ℚ))
    | _, _ => none

/-- What the duration chart slot delivers: a histogram over the derived
column, or the textual no-data placeholder. -/
inductive DurChart where
  | histogram (values : List (Option ℚ))
  | noData (text : String)
deriving DecidableEq

/-- Chart 4 of the tax page (lines 323-337 of src/app.py): the duration
histogram is computed only over a non-empty inactive subset. -/
def durationChart (df : List TaxNRow) : DurChart :=
  let inact := inactiveOf df
  if inact.isEmpty then
    .noData "No inactive taxpayers in the filtered data to show duration."
  else .histogram (activityDurations inact)

/-- One row of the HCMST table, restricted to the columns the embedded
aggregates read. -/
structure HcRow where
  q24_met_online : Option String
  relationship_quality : Option String
  how_long_relationship : Option ℚ
deriving DecidableEq

/-- `data[q24_met_online].dropna().unique().tolist()` (not sorted in
this branch). -/
def hcMethods (t : List HcRow) : List String :=
  dedupFirst (t.filterMap (·.q24_met_online))

def hcEffMethods (t : List HcRow) (sel : List String) : List String :=
  if sel.isEmpty then hcMethods t else sel

/-- `df_filtered = data[data[q24_met_online].isin(selected_methods)]` -/
def hcFilter (t : List HcRow) (sel : List String) : List HcRow :=
  t.filter fun r => optMem r.q24_met_online (hcEffMethods t sel)

/-- `avg_duration = df_filtered[how_long_relationship].mean()` -/
def avgDuration (df : List HcRow) : Option ℚ :=
  meanOpt (df.map (·.how_long_relationship))

/-- The string handed to the metric renderer by
`col2.metric(..., f"{avg_duration:.1f}")`. -/
def avgDurationText (df : List HcRow) : String :=
  match avgDuration df with
  | none => "nan"
  | some q => fmtFixed 1 q

/-- The (row key, column key) pairs `pd.crosstab` actually tabulates:
rows of the filtered frame where both columns are present. -/
def ctPairs (df : List HcRow) : List (String × String) :=
  df.filterMap fun r =>
    match r.q24_met_online, r.relationship_quality with
    | some a, some b => some (a, b)
    | _, _ => none

/-- The crosstab row index: distinct first components, sorted. -/
def ctRowKeys (ps : List (String × String)) : List String :=
  sortedUnique (ps.map Prod.fst)

/-- The crosstab column index: distinct second components, sorted. -/
def ctColKeys (ps : List (String × String)) : List String :=
  sortedUnique (ps.map Prod.snd)

/-- The number of pairs in cell (r, c). -/
def ctCount (ps : List (String × String)) (r c : String) : Nat :=
  ((ps.filter fun p => decide (p.1 = r)).filter fun p => decide (p.2 = c)).length

/-- The number of pairs in row r. -/
def ctRowTotal (ps : List (String × String)) (r : String) : Nat :=
  (ps.filter fun p => decide (p.1 = r)).length

/-- One cell of `pd.crosstab(..., normalize=index) * 100`. -/
def ctPct (ps : List (String × String)) (r c : String) : ℚ :=
  (ctCount ps r c : ℚ) / (ctRowTotal ps r : ℚ) * 100

/-- `quality_pct` after `reset_index().melt(...)` (lines 386-395 of
src/app.py): the long form, one (row key, column key, percentage) triple
per crosstab cell, stacked column by column as melt does. -/
def qualityPct (df : List HcRow) : List (String × String × ℚ) :=
  ((ctColKeys (ctPairs df)).map fun c =>
    (ctRowKeys (ctPairs df)).map fun r => (r, c, ctPct (ctPairs df) r c)).flatten

/-- Two inactive taxpayers registered 2015, deregistered 2019 and 2020. -/
def taxRowA : TaxNRow :=
  ⟨some "innactive", some ⟨2015, 1, 10⟩, some ⟨2019, 5, 1⟩, some 2015, some 2019⟩

def taxRowB : TaxNRow :=
  ⟨some "innactive", some ⟨2015, 1, 10⟩, some ⟨2020, 5, 1⟩, some 2015, some 2020⟩

/-- An active taxpayer registered 2015, never deregistered. -/
def taxRowC : TaxNRow :=
  ⟨some "active", some ⟨2015, 3, 2⟩, none, some 2015, none⟩

def taxTableC1 : List TaxNRow := [taxRowA, taxRowB, taxRowC]

/-- Status selection {innactive}, registration years unrestricted by the
concrete choice of the full candidate set, deregistration years {2020}. -/
def taxSelC1 : TaxSel := ⟨["innactive"], [2015], [2020]⟩

/-- An active 2020 registration and an inactive 2021 registration. -/
def taxTableC2 : List TaxNRow :=
  [⟨some "active", some ⟨2020, 1, 10⟩, none, some 2020, none⟩,
   ⟨some "innactive", some ⟨2021, 1, 10⟩, some ⟨2022, 5, 1⟩, some 2021, some 2022⟩]

/-- Selecting the inactive status together with the single registration
year 2020 leaves no matching row. -/
def taxSelC2 : TaxSel := ⟨["innactive"], [2020], []⟩

def vgTableC2 : List VgRow :=
  [⟨some 2000, some "Action", some "Nintendo", some 1⟩,
   ⟨some 2001, some "Sports", some "Nintendo", some 2⟩]

/-- The single year 2000 with the genre Sports: no row matches both. -/
def vgSelC2 : VgSel := ⟨[2000], ["Sports"], []⟩

def vgTableC3 : List VgRow :=
  [⟨some 1999, some "Racing", some "Sega", some (3/2)⟩,
   ⟨some 2002, some "Puzzle", none, some (1/4)⟩]

def vgSelC3 : VgSel := ⟨[1999], ["Puzzle"], []⟩

def vgTableC5 : List VgRow :=
  [⟨some 2005, some "Action", some "EA", some 1⟩,
   ⟨some 2006, some "Sports", some "EA", some 2⟩,
   ⟨some 2005, some "Action", some "EA", some 4⟩]

/-- One selected year, no matching genre: empty Filtered View under the
single-year branch. -/
def vgSelC5 : VgSel := ⟨[2006], ["Action"], []⟩

/-- One selected year with two matching rows. -/
def vgSelC5single : VgSel := ⟨[2005], [], []⟩

/-- Two selected years: the series branch. -/
def vgSelC5series : VgSel := ⟨[2005, 2006], [], []⟩

/-- A raw tax frame: one row, status with stray whitespace, one parsable
date, one missing date. -/
def taxFrameRaw : TaxFrame :=
  { aktivs := ⟨ColDtype.object, [Cell.str " jā "]⟩,
    registrets := ⟨ColDtype.object, [Cell.str "05.01.2021"]⟩,
    izslegts := ⟨ColDtype.object, [Cell.null]⟩ }

/-- The frame `normalizeTax` produces from `taxFrameRaw`. -/
def taxFrameNorm : TaxFrame :=
  { aktivs := ⟨ColDtype.object, [Cell.str "active"]⟩,
    registrets := ⟨ColDtype.datetime, [Cell.date ⟨2021, 1, 5⟩]⟩,
    izslegts := ⟨ColDtype.datetime, [Cell.null]⟩,
    registration_year := some [some 2021],
    deregistration_year := some [none] }

def vgRawCols : List String := ["Rank", "Global Sales", "NA Sales"]

def hcTableC7 : List HcRow :=
  [⟨some "yes", some "good", some 3⟩,
   ⟨some "yes", some "bad", none⟩,
   ⟨some "no", some "good", some (7/2)⟩]

def hcTableC3 : List HcRow := [⟨some "yes", some "good", some 3⟩]

def taxTableC9empty : List TaxNRow := [taxRowC]

def taxTableC9full : List TaxNRow :=
  [⟨some "innactive", some ⟨2020, 3, 1⟩, some ⟨2021, 3, 1⟩, some 2020, some 2021⟩]

def vgTableC8 : List VgRow :=
  [⟨some 2000, some "Action", some "Nintendo", some 5⟩,
   ⟨some 2001, some "Sports", none, some 2⟩]

/-! ## Theorems -/

theorem mem_dedupFirstAux {α : Type} [DecidableEq α] (a : α) :
    ∀ (l seen : List α), a ∈ dedupFirstAux seen l ↔ a ∈ l ∧ a ∉ seen := by
  intro l
  induction l with
  | nil => intro seen; simp [dedupFirstAux]
  | cons x xs ih =>
    intro seen
    by_cases hx : x ∈ seen
    · rw [dedupFirstAux, if_pos hx, ih]
      simp only [List.mem_cons]
      constructor
      · rintro ⟨h1, h2⟩
        exact ⟨Or.inr h1, h2⟩
      · rintro ⟨h1 | h1, h2⟩
        · subst h1; exact absurd hx h2
        · exact ⟨h1, h2⟩
    · rw [dedupFirstAux, if_neg hx]
      simp only [List.mem_cons, ih]
      constructor
      · rintro (rfl | ⟨h1, h2⟩)
        · exact ⟨Or.inl rfl, hx⟩
        · exact ⟨Or.inr h1, fun hs => h2 (Or.inr hs)⟩
      · rintro ⟨rfl | h1, h2⟩
        · exact Or.inl rfl
        · by_cases hax : a = x
          · exact Or.inl hax
          · refine Or.inr ⟨h1, fun hs => ?_⟩
            rcases hs with h | h
            · exact hax h
            · exact h2 h

theorem mem_dedupFirst {α : Type} [DecidableEq α] {a : α} {l : List α} :
    a ∈ dedupFirst l ↔ a ∈ l := by
  rw [dedupFirst, mem_dedupFirstAux]; simp

theorem nodup_dedupFirstAux {α : Type} [DecidableEq α] :
    ∀ (l seen : List α), (dedupFirstAux seen l).Nodup := by
  intro l
  induction l with
  | nil => intro seen; simp [dedupFirstAux]
  | cons x xs ih =>
    intro seen
    by_cases hx : x ∈ seen
    · rw [dedupFirstAux, if_pos hx]; exact ih seen
    · rw [dedupFirstAux, if_neg hx]
      refine List.nodup_cons.mpr ⟨?_, ih (x :: seen)⟩
      rw [mem_dedupFirstAux]
      rintro ⟨-, h⟩
      exact h (List.mem_cons_self x seen)

theorem nodup_dedupFirst {α : Type} [DecidableEq α] (l : List α) :
    (dedupFirst l).Nodup :=
  nodup_dedupFirstAux l []

theorem mem_sortAsc {α : Type} [LinearOrder α] {a : α} {l : List α} :
    a ∈ sortAsc l ↔ a ∈ l :=
  (List.perm_insertionSort _ l).mem_iff

theorem nodup_sortAsc {α : Type} [LinearOrder α] {l : List α} (h : l.Nodup) :
    (sortAsc l).Nodup :=
  ((List.perm_insertionSort _ l).nodup_iff).mpr h

theorem mem_sortedUnique {α : Type} [DecidableEq α] [LinearOrder α] {a : α} {l : List α} :
    a ∈ sortedUnique l ↔ a ∈ l := by
  rw [sortedUnique, mem_sortAsc, mem_dedupFirst]

theorem nodup_sortedUnique {α : Type} [DecidableEq α] [LinearOrder α] (l : List α) :
    (sortedUnique l).Nodup :=
  nodup_sortAsc (nodup_dedupFirst l)

theorem sum_map_add {α : Type} (l : List α) (f g : α → ℕ) :
    (l.map fun c => f c + g c).sum = (l.map f).sum + (l.map g).sum := by
  induction l with
  | nil => simp
  | cons x xs ih => simp [ih]; omega

theorem sum_map_indicator_zero {α : Type} [DecidableEq α] {b : α} {l : List α}
    (hb : b ∉ l) : (l.map fun c => if b = c then 1 else 0).sum = 0 := by
  induction l with
  | nil => simp
  | cons x xs ih =>
    have hbx : ¬b = x := fun h => hb (h ▸ List.mem_cons_self x xs)
    have hbxs : b ∉ xs := fun h => hb (List.mem_cons_of_mem _ h)
    simp [hbx, ih hbxs]

theorem sum_map_indicator_one {α : Type} [DecidableEq α] {b : α} {l : List α}
    (hn : l.Nodup) (hb : b ∈ l) :
    (l.map fun c => if b = c then 1 else 0).sum = 1 := by
  induction l with
  | nil => simp at hb
  | cons x xs ih =>
    rcases List.nodup_cons.mp hn with ⟨hx, hxs⟩
    by_cases hbx : b = x
    · subst hbx
      simp [sum_map_indicator_zero hx]
    · rcases List.mem_cons.mp hb with h | h
      · exact absurd h hbx
      · simp [hbx, ih hxs h]

/-- The buckets induced by `f` over the candidate list `cs` partition `l`:
the bucket sizes add up to the length of `l`. -/
theorem sum_bucket_lengths {α β : Type} [DecidableEq β] (l : List α) (f : α → β)
    (cs : List β) (hn : cs.Nodup) (hm : ∀ x ∈ l, f x ∈ cs) :
    (cs.map fun c => (l.filter fun x => decide (f x = c)).length).sum = l.length := by
  induction l with
  | nil => simp
  | cons x xs ih =>
    have hx : f x ∈ cs := hm x (List.mem_cons_self x xs)
    have hxs : ∀ y ∈ xs, f y ∈ cs := fun y hy => hm y (List.mem_cons_of_mem _ hy)
    have hstep : ∀ c, ((x :: xs).filter fun y => decide (f y = c)).length =
        (if f x = c then 1 else 0) + ((xs.filter fun y => decide (f y = c)).length) := by
      intro c
      by_cases hfx : f x = c
      · simp [List.filter_cons, hfx]
        omega
      · simp [List.filter_cons, hfx]
    simp only [hstep]
    rw [sum_map_add, sum_map_indicator_one hn hx, ih hxs]
    simp [Nat.add_comm]

theorem countP_self_eq_one {α : Type} [DecidableEq α] {a : α} {l : List α}
    (hn : l.Nodup) (ha : a ∈ l) :
    (l.countP fun b => decide (a = b)) = 1 := by
  induction l with
  | nil => simp at ha
  | cons x xs ih =>
    rcases List.nodup_cons.mp hn with ⟨hx, hxs⟩
    by_cases hax : a = x
    · subst hax
      rw [List.countP_cons]
      have : xs.countP (fun b => decide (a = b)) = 0 := by
        rw [List.countP_eq_zero]
        intro b hb
        simp only [decide_eq_true_eq]
        rintro rfl
        exact hx hb
      simp [this]
    · rcases List.mem_cons.mp ha with h | h
      · exact absurd h hax
      · rw [List.countP_cons]
        simp [hax, ih hxs h]

/-- Keeping only the element equal to `a` from a duplicate-free list that
contains `a` yields exactly `[a]`. -/
theorem filter_eq_singleton {α : Type} [DecidableEq α] {a : α} {l : List α}
    (hn : l.Nodup) (ha : a ∈ l) :
    (l.filter fun b => decide (b = a)) = [a] := by
  induction l with
  | nil => simp at ha
  | cons x xs ih =>
    rcases List.nodup_cons.mp hn with ⟨hx, hxs⟩
    by_cases hax : x = a
    · subst hax
      have : xs.filter (fun b => decide (b = x)) = [] := by
        rw [List.filter_eq_nil_iff]
        intro b hb
        simp only [decide_eq_true_eq]
        rintro rfl
        exact hx hb
      simp [List.filter_cons, this]
    · rcases List.mem_cons.mp ha with h | h
      · exact absurd h.symm hax
      · simp [List.filter_cons, hax, ih hxs h]

theorem filter_eq_nil_of_not_mem {α : Type} [DecidableEq α] {a : α} {l : List α}
    (ha : a ∉ l) :
    (l.filter fun b => decide (b = a)) = [] := by
  rw [List.filter_eq_nil_iff]
  intro b hb
  simp only [decide_eq_true_eq]
  rintro rfl
  exact ha hb

theorem toLower_of_upper (c : Char) (h : 65 ≤ c.toNat ∧ c.toNat ≤ 90) :
    c.toLower = Char.ofNat (c.toNat + 32) := by
  rw [Char.toLower]
  simp only [ge_iff_le]
  rw [if_pos ⟨h.1, h.2⟩]

theorem toLower_of_not_upper (c : Char) (h : ¬(65 ≤ c.toNat ∧ c.toNat ≤ 90)) :
    c.toLower = c := by
  rw [Char.toLower]
  simp only [ge_iff_le]
  rw [if_neg h]

theorem toLower_toLower (c : Char) : c.toLower.toLower = c.toLower := by
  by_cases h : 65 ≤ c.toNat ∧ c.toNat ≤ 90
  · rw [toLower_of_upper c h]
    obtain ⟨h65, h90⟩ := h
    generalize c.toNat = n at h65 h90
    interval_cases n <;> decide
  · rw [toLower_of_not_upper c h, toLower_of_not_upper c h]

theorem vgNormChar_idem (c : Char) :
    (if (if c.toLower = ' ' then '_' else c.toLower).toLower = ' ' then '_'
     else (if c.toLower = ' ' then '_' else c.toLower).toLower) =
    (if c.toLower = ' ' then '_' else c.toLower) := by
  by_cases hsp : c.toLower = ' '
  · rw [if_pos hsp]
    decide
  · rw [if_neg hsp, toLower_toLower, if_neg hsp]

theorem colNorm_idem (s : String) :
    underscoreName (lowerName (underscoreName (lowerName s))) =
      underscoreName (lowerName s) := by
  simp only [underscoreName, lowerName, List.map_map]
  apply congrArg String.mk
  apply List.map_congr_left
  intro c _
  simpa [Function.comp] using vgNormChar_idem c

theorem vgNormalizeColumns_idem (cols : List String) :
    vgNormalizeColumns (vgNormalizeColumns cols) = vgNormalizeColumns cols := by
  rw [vgNormalizeColumns, vgNormalizeColumns, List.map_map]
  apply List.map_congr_left
  intro s _
  simpa [Function.comp] using colNorm_idem s

theorem strStripCol_ok_eq {c c' : Column} (h : strStripCol c = .ok c') :
    c' = ⟨ColDtype.object, c.cells.map fun x =>
      match x with
      | .str s => .str (stripStr s)
      | _ => .null⟩ := by
  rw [strStripCol] at h
  split at h
  · exact absurd h (by simp)
  · exact (Except.ok.injEq _ _ ▸ h).symm

theorem strStripCol_of_datetime {c : Column} (h : c.dtype = ColDtype.datetime) :
    strStripCol c = .error "AttributeError: Can only use .str accessor with string values!" := by
  rw [strStripCol, if_pos h]

theorem strStripCol_of_object {c : Column} (h : ¬c.dtype = ColDtype.datetime) :
    strStripCol c = .ok ⟨ColDtype.object, c.cells.map fun x =>
      match x with
      | .str s => .str (stripStr s)
      | _ => .null⟩ := by
  rw [strStripCol, if_neg h]

/-- Re-invoking the tax normalizer on any frame it has produced fails:
the date columns now carry the datetime dtype and the second
`.str.strip()` raises. -/
theorem normalizeTax_reapply {f g : TaxFrame} (h : normalizeTax f = .ok g) :
    normalizeTax g =
      .error "AttributeError: Can only use .str accessor with string values!" := by
  rw [normalizeTax] at h
  cases hak : strStripCol f.aktivs with
  | error e => rw [hak] at h; simp at h
  | ok ak0 =>
    rw [hak] at h
    cases hreg : strStripCol f.registrets with
    | error e => rw [hreg] at h; simp at h
    | ok reg0 =>
      rw [hreg] at h
      cases hiz : strStripCol f.izslegts with
      | error e => rw [hiz] at h; simp at h
      | ok iz0 =>
        rw [hiz] at h
        simp only [Except.ok.injEq] at h
        have hobj : g.aktivs.dtype = ColDtype.object := by
          rw [← h, strStripCol_ok_eq hak]
          rfl
        have hdt : g.registrets.dtype = ColDtype.datetime := by
          rw [← h]
          rfl
        have h1 := @strStripCol_of_object g.aktivs (by rw [hobj]; simp)
        have h2 := strStripCol_of_datetime hdt
        rw [normalizeTax, h1, h2]

theorem filterMap_year_const {y : Int} :
    ∀ (df : List VgRow), (∀ r ∈ df, r.year = some y) →
      df.filterMap (·.year) = List.replicate df.length y := by
  intro df
  induction df with
  | nil => intro _; rfl
  | cons r rs ih =>
    intro h
    have hr := h r (List.mem_cons_self r rs)
    have hrs := fun x hx => h x (List.mem_cons_of_mem _ hx)
    simp [List.filterMap_cons, hr, ih hrs, List.replicate_succ]

theorem dedupFirstAux_replicate_mem {α : Type} [DecidableEq α] {y : α} {seen : List α}
    (hy : y ∈ seen) : ∀ n, dedupFirstAux seen (List.replicate n y) = [] := by
  intro n
  induction n with
  | zero => rfl
  | succ m ih => rw [List.replicate_succ, dedupFirstAux, if_pos hy, ih]

theorem dedupFirst_replicate {α : Type} [DecidableEq α] (y : α) {n : Nat} (hn : n ≠ 0) :
    dedupFirst (List.replicate n y) = [y] := by
  cases n with
  | zero => exact absurd rfl hn
  | succ m =>
    rw [List.replicate_succ, dedupFirst, dedupFirstAux]
    rw [if_neg (List.not_mem_nil y)]
    rw [dedupFirstAux_replicate_mem (List.mem_cons_self y []) m]

theorem valueCountsByFreq_replicate (y : Int) {n : Nat} (hn : n ≠ 0) :
    valueCountsByFreq (List.replicate n y) = [(y, n)] := by
  rw [valueCountsByFreq, dedupFirst_replicate y hn]
  simp [List.insertionSort, List.orderedInsert]

theorem sortAsc_pairwise_lt {l : List Int} (hnd : l.Nodup) :
    (sortAsc l).Pairwise (· < ·) := by
  have hle : (sortAsc l).Pairwise (· ≤ ·) := List.sorted_insertionSort _ l
  have hne : (sortAsc l).Pairwise (· ≠ ·) := nodup_sortAsc hnd
  exact (hle.and hne).imp fun h => lt_of_le_of_ne h.1 h.2

theorem filter_flatten {γ : Type} (p : γ → Bool) (L : List (List γ)) :
    L.flatten.filter p = (L.map fun l => l.filter p).flatten := by
  induction L with
  | nil => rfl
  | cons l ls ih => simp [List.filter_append, ih]

theorem filterOfMap {γ δ : Type} (f : γ → δ) (p : δ → Bool) (l : List γ) :
    (l.map f).filter p = (l.filter fun x => p (f x)).map f := by
  induction l with
  | nil => rfl
  | cons x xs ih =>
    by_cases h : p (f x) = true
    · simp [List.filter_cons, h, ih]
    · simp only [List.map_cons, List.filter_cons, h]
      simp only [Bool.false_eq_true, if_false]
      exact ih

theorem flatten_map_singleton {γ δ : Type} (g : γ → δ) (l : List γ) :
    (l.map fun c => [g c]).flatten = l.map g := by
  induction l with
  | nil => rfl
  | cons x xs ih => simp [ih]

theorem flatten_map_nil {γ δ : Type} (l : List γ) :
    (l.map fun _ => ([] : List δ)).flatten = [] := by
  induction l with
  | nil => rfl
  | cons x xs ih => simp [ih]

/-- The cell counts of one crosstab row add up to its row total. -/
theorem sum_ctCount (ps : List (String × String)) (rk : String) :
    ((ctColKeys ps).map fun c => ctCount ps rk c).sum = ctRowTotal ps rk := by
  have hm : ∀ x ∈ ps.filter fun p => decide (p.1 = rk), Prod.snd x ∈ ctColKeys ps := by
    intro x hx
    rw [ctColKeys, mem_sortedUnique]
    exact List.mem_map_of_mem _ (List.mem_of_mem_filter hx)
  have h := sum_bucket_lengths (ps.filter fun p => decide (p.1 = rk)) Prod.snd
    (ctColKeys ps) (nodup_sortedUnique _) hm
  exact h

/-- C6: for every Selection State and every filter dimension of the
video-game branch, leaving the dimension's chosen set empty yields a
Filtered View identical to choosing the dimension's full candidate set;
an empty selection means unrestricted, never exclude-everything. -/
theorem C6_empty_selection_unrestricted (t : List VgRow) (s : VgSel) :
    vgFilter t { s with years := [] } =
        vgFilter t { s with years := candidateYears t } ∧
    vgFilter t { s with genres := [] } =
        vgFilter t { s with genres := candidateGenres t } ∧
    vgFilter t { s with publishers := [] } =
        vgFilter t { s with publishers := vgPublisherOptions t } := by
  refine ⟨?_, ?_, ?_⟩
  · cases h : (candidateYears t).isEmpty <;> simp [vgFilter, vgEff, h]
  · cases h : (candidateGenres t).isEmpty <;> simp [vgFilter, vgEff, h]
  · cases h : (vgPublisherOptions t).isEmpty <;> simp [vgFilter, vgEff, h]

/-- C9: the duration-derived aggregation over inactive taxpayers is
computed only when its row subset is non-empty; on an empty subset the
textual no-data placeholder is produced instead of a computation over an
empty frame. -/
theorem C9_duration_empty_guard (df : List TaxNRow) :
    (inactiveOf df = [] →
      durationChart df =
        .noData "No inactive taxpayers in the filtered data to show duration.") ∧
    (inactiveOf df ≠ [] →
      durationChart df = .histogram (activityDurations (inactiveOf df))) := by
  constructor
  · intro h
    rw [durationChart]
    simp [h]
  · intro h
    rw [durationChart]
    simp only [List.isEmpty_iff]
    rw [if_neg h]

theorem C9_witness :
    durationChart taxTableC9empty =
      .noData "No inactive taxpayers in the filtered data to show duration." ∧
    durationChart taxTableC9full =
      .histogram (activityDurations (inactiveOf taxTableC9full)) :=
  ⟨(C9_duration_empty_guard taxTableC9empty).1 (by with_unfolding_all decide),
   (C9_duration_empty_guard taxTableC9full).2 (by with_unfolding_all decide)⟩

set_option maxRecDepth 40000 in
/-- C1: evaluating the tax Filter Combinator on two inactive rows
deregistered in 2019 and 2020 (both registered 2015) with status
selection {innactive} and deregistration-year selection {2020}.  The
claim says only the row deregistered in 2020 remains; the code keeps
both, because the conditional deregistration-year restriction is guarded
by the stale pre-recode token "no", which the canonical status
vocabulary {active, innactive} never contains. -/
theorem C1_dead_conditional_eval :
    taxFilter taxTableC1 taxSelC1 = [taxRowA, taxRowB] ∧
    taxRowA.deregistration_year = some 2019 ∧
    taxFilter taxTableC1 taxSelC1 ≠ [taxRowB] := by
  refine ⟨by with_unfolding_all decide, by with_unfolding_all decide,
    by with_unfolding_all decide⟩

set_option maxRecDepth 40000 in
/-- C2: the single-bucket scalar branch of count-over-time raises.  With
exactly one selected year (video-game branch) or registration year (tax
branch) and an empty Filtered View, `value_counts().iloc[0]` is an
out-of-bounds positional access: the aggregate raises an IndexError
instead of degrading to a placeholder. -/
theorem C2_single_bucket_iloc_raises :
    vgFilter vgTableC2 vgSelC2 = [] ∧
    vgChart3 vgTableC2 vgSelC2 =
      .exn "IndexError: single positional indexer is out-of-bounds" ∧
    taxFilter taxTableC2 taxSelC2 = [] ∧
    taxChart2 taxTableC2 taxSelC2 =
      .exn "IndexError: single positional indexer is out-of-bounds" := by
  refine ⟨by with_unfolding_all decide, by with_unfolding_all decide,
    by with_unfolding_all decide, by with_unfolding_all decide⟩

set_option maxRecDepth 40000 in
/-- C3 counterexample: at a concrete Selection State whose Filtered View
is empty, the scalar-mean metric is NaN (no value) and the string handed
to the metric renderer is the formatted NaN "nan" — not an explicit
undefined placeholder. -/
theorem C3_counterexample_nan_rendered :
    vgFilter vgTableC3 vgSelC3 = [] ∧
    avgSalesPerGame (vgFilter vgTableC3 vgSelC3) = none ∧
    avgSalesPerGameText (vgFilter vgTableC3 vgSelC3) = "nan" := by
  refine ⟨by with_unfolding_all decide, by with_unfolding_all decide,
    by with_unfolding_all decide⟩

/-- C3 amended: when the Filtered View has zero rows, the scalar-mean
aggregation yields NaN (no value), and what reaches the metric renderer
is that NaN formatted as the metric value, the string "nan"; no
undefined placeholder is produced (video-game and HCMST mean metrics
alike). -/
theorem C3_amended_mean_nan :
    (∀ (t : List VgRow) (s : VgSel), vgFilter t s = [] →
      avgSalesPerGame (vgFilter t s) = none ∧
      avgSalesPerGameText (vgFilter t s) = "nan") ∧
    (∀ (h : List HcRow) (sel : List String), hcFilter h sel = [] →
      avgDuration (hcFilter h sel) = none ∧
      avgDurationText (hcFilter h sel) = "nan") := by
  constructor
  · intro t s hempty
    rw [hempty]
    exact ⟨rfl, rfl⟩
  · intro h sel hempty
    rw [hempty]
    exact ⟨rfl, rfl⟩

theorem C3_witness :
    (avgSalesPerGame (vgFilter vgTableC3 vgSelC3) = none ∧
      avgSalesPerGameText (vgFilter vgTableC3 vgSelC3) = "nan") ∧
    (avgDuration (hcFilter hcTableC3 ["no"]) = none ∧
      avgDurationText (hcFilter hcTableC3 ["no"]) = "nan") :=
  ⟨C3_amended_mean_nan.1 vgTableC3 vgSelC3 (by with_unfolding_all decide),
   C3_amended_mean_nan.2 hcTableC3 ["no"] (by with_unfolding_all decide)⟩

set_option maxRecDepth 40000 in
/-- C4 counterexample: a concrete raw tax frame normalizes successfully,
but re-invoking the normalizer on the result is not a no-op — it raises
an AttributeError, because the date columns now carry the datetime dtype
and `.str.strip()` only works on object columns. -/
theorem C4_counterexample_renormalize_fails :
    normalizeTax taxFrameRaw = .ok taxFrameNorm ∧
    normalizeTax taxFrameNorm =
      .error "AttributeError: Can only use .str accessor with string values!" := by
  refine ⟨by with_unfolding_all decide, by with_unfolding_all decide⟩

/-- C4 amended: the column-name canonicalization of the video-game
branch is idempotent, but the tax-dataset normalizer is not re-invocable:
on every table it has itself produced, a second invocation fails with an
AttributeError at the string-strip of the already-parsed date columns,
so re-normalizing is neither a no-op nor failure-free. -/
theorem C4_amended_idempotence (cols : List String) {f g : TaxFrame}
    (h : normalizeTax f = .ok g) :
    vgNormalizeColumns (vgNormalizeColumns cols) = vgNormalizeColumns cols ∧
    normalizeTax g =
      .error "AttributeError: Can only use .str accessor with string values!" :=
  ⟨vgNormalizeColumns_idem cols, normalizeTax_reapply h⟩

set_option maxRecDepth 40000 in
theorem C4_witness :
    vgNormalizeColumns (vgNormalizeColumns vgRawCols) = vgNormalizeColumns vgRawCols ∧
    normalizeTax taxFrameNorm =
      .error "AttributeError: Can only use .str accessor with string values!" :=
  @C4_amended_idempotence vgRawCols taxFrameRaw taxFrameNorm
    (by with_unfolding_all decide)

/-- C5 amended: the count-over-time chart follows the three-way branch on
the effective selected years: with two or more it produces the per-year
count series sorted ascending by year; with exactly one selected year
and a NON-EMPTY Filtered View it produces a scalar count equal to the
number of rows of the view (with an empty view that branch raises, see
the counterexample); with zero it produces the select-more message. -/
theorem C5_amended_three_way_branch (t : List VgRow) (s : VgSel) :
    (1 < (vgEff t s).years.length →
      vgChart3 t s =
        .series (valueCountsSortIndex ((vgFilter t s).filterMap (·.year))) ∧
      ((valueCountsSortIndex ((vgFilter t s).filterMap (·.year))).map
          Prod.fst).Pairwise (· < ·) ∧
      ∀ p ∈ valueCountsSortIndex ((vgFilter t s).filterMap (·.year)),
        p.2 = ((vgFilter t s).filterMap (·.year)).count p.1) ∧
    ((vgEff t s).years.length = 1 → vgFilter t s ≠ [] →
      vgChart3 t s = .metric (vgFilter t s).length) ∧
    ((vgEff t s).years.length = 0 →
      vgChart3 t s = .message "Select multiple years to see trend.") := by
  refine ⟨?_, ?_, ?_⟩
  · intro hlen
    refine ⟨?_, ?_, ?_⟩
    · simp only [vgChart3, gamesPerYearChart]
      rw [if_pos hlen]
    · rw [valueCountsSortIndex, List.map_map]
      have hcomp : (Prod.fst ∘ fun y =>
          (y, ((vgFilter t s).filterMap (·.year)).count y)) = id := rfl
      rw [hcomp, List.map_id]
      exact sortAsc_pairwise_lt (nodup_dedupFirst _)
    · intro p hp
      rw [valueCountsSortIndex] at hp
      obtain ⟨y, hy, rfl⟩ := List.mem_map.mp hp
      rfl
  · intro hlen hne
    obtain ⟨y, hy⟩ : ∃ y, (vgEff t s).years = [y] := by
      cases hys : (vgEff t s).years with
      | nil => rw [hys] at hlen; simp at hlen
      | cons a l =>
        cases l with
        | nil => exact ⟨a, rfl⟩
        | cons b l2 => rw [hys] at hlen; simp at hlen
    have hall : ∀ r ∈ vgFilter t s, r.year = some y := by
      intro r hr
      simp only [vgFilter] at hr
      have hb := (List.mem_filter.mp hr).2
      rw [hy] at hb
      have hyb := (Bool.and_eq_true_iff.mp (Bool.and_eq_true_iff.mp hb).1).1
      cases hry : r.year with
      | none => rw [hry] at hyb; simp [optMem] at hyb
      | some x =>
        rw [hry] at hyb
        simp only [optMem, decide_eq_true_eq, List.mem_singleton] at hyb
        rw [hyb]
    have hrep := filterMap_year_const (vgFilter t s) hall
    have hlen0 : (vgFilter t s).length ≠ 0 := fun h0 =>
      hne (List.length_eq_zero.mp h0)
    simp only [vgChart3, gamesPerYearChart]
    rw [hy, hrep, valueCountsByFreq_replicate y hlen0]
    rw [if_neg (by simp), if_pos (by simp)]
  · intro hlen
    have hy : (vgEff t s).years = [] := List.length_eq_zero.mp hlen
    simp only [vgChart3, gamesPerYearChart]
    rw [hy]
    simp

set_option maxRecDepth 40000 in
/-- C5 counterexample: with exactly one selected year but an empty
Filtered View (year 2006 with genre Action matches nothing), the
single-bucket branch raises an IndexError instead of producing the
scalar count of the (zero) rows of the view. -/
theorem C5_counterexample_empty_single_year :
    (vgEff vgTableC5 vgSelC5).years.length = 1 ∧
    vgFilter vgTableC5 vgSelC5 = [] ∧
    vgChart3 vgTableC5 vgSelC5 =
      .exn "IndexError: single positional indexer is out-of-bounds" ∧
    vgChart3 vgTableC5 vgSelC5 ≠ .metric (vgFilter vgTableC5 vgSelC5).length := by
  refine ⟨by with_unfolding_all decide, by with_unfolding_all decide,
    by with_unfolding_all decide, by with_unfolding_all decide⟩

set_option maxRecDepth 40000 in
theorem C5_witness :
    vgChart3 vgTableC5 vgSelC5single = .metric (vgFilter vgTableC5 vgSelC5single).length ∧
    vgChart3 vgTableC5 vgSelC5series =
      .series (valueCountsSortIndex ((vgFilter vgTableC5 vgSelC5series).filterMap (·.year))) :=
  ⟨(C5_amended_three_way_branch vgTableC5 vgSelC5single).2.1
      (by with_unfolding_all decide) (by with_unfolding_all decide),
   ((C5_amended_three_way_branch vgTableC5 vgSelC5series).1
      (by with_unfolding_all decide)).1⟩

/-- Restricting the melted crosstab to one present row key keeps exactly
one triple per column key. -/
theorem qualityPct_filter_row (df : List HcRow) (rk : String)
    (hrk : rk ∈ ctRowKeys (ctPairs df)) :
    (qualityPct df).filter (fun e => decide (e.1 = rk)) =
      (ctColKeys (ctPairs df)).map fun c => (rk, c, ctPct (ctPairs df) rk c) := by
  have hnd : (ctRowKeys (ctPairs df)).Nodup := nodup_sortedUnique _
  rw [qualityPct, filter_flatten, List.map_map]
  have hinner : ∀ c,
      (((ctRowKeys (ctPairs df)).map fun r =>
          (r, c, ctPct (ctPairs df) r c)).filter fun e => decide (e.1 = rk)) =
        [(rk, c, ctPct (ctPairs df) rk c)] := by
    intro c
    rw [filterOfMap]
    show (((ctRowKeys (ctPairs df)).filter fun x => decide (x = rk)).map fun r =>
        (r, c, ctPct (ctPairs df) r c)) = _
    rw [filter_eq_singleton hnd hrk]
    rfl
  have hfun : ((fun l : List (String × String × ℚ) =>
        l.filter fun e => decide (e.1 = rk)) ∘ fun c =>
          (ctRowKeys (ctPairs df)).map fun r => (r, c, ctPct (ctPairs df) r c)) =
      fun c => [(rk, c, ctPct (ctPairs df) rk c)] :=
    funext fun c => hinner c
  rw [hfun]
  exact flatten_map_singleton _ _

/-- Restricting the melted crosstab to an absent row key keeps nothing. -/
theorem qualityPct_filter_row_absent (df : List HcRow) (rk : String)
    (hrk : rk ∉ ctRowKeys (ctPairs df)) :
    (qualityPct df).filter (fun e => decide (e.1 = rk)) = [] := by
  rw [qualityPct, filter_flatten, List.map_map]
  have hinner : ∀ c,
      (((ctRowKeys (ctPairs df)).map fun r =>
          (r, c, ctPct (ctPairs df) r c)).filter fun e => decide (e.1 = rk)) =
        ([] : List (String × String × ℚ)) := by
    intro c
    rw [filterOfMap]
    show (((ctRowKeys (ctPairs df)).filter fun x => decide (x = rk)).map fun r =>
        (r, c, ctPct (ctPairs df) r c)) = _
    rw [filter_eq_nil_of_not_mem hrk]
    rfl
  have hfun : ((fun l : List (String × String × ℚ) =>
        l.filter fun e => decide (e.1 = rk)) ∘ fun c =>
          (ctRowKeys (ctPairs df)).map fun r => (r, c, ctPct (ctPairs df) r c)) =
      fun _ => ([] : List (String × String × ℚ)) :=
    funext fun c => hinner c
  rw [hfun]
  exact flatten_map_nil _

/-- C7: for every row-normalized-crosstab aggregate, each row key with at
least one underlying (fully present) row has percentages across the
column keys summing to exactly 100; a row key with no underlying row is
absent from the melted result. -/
theorem C7_crosstab_rows_sum_100 (df : List HcRow) :
    (∀ rk, rk ∈ (ctPairs df).map Prod.fst →
      (((qualityPct df).filter fun e => decide (e.1 = rk)).map
          fun e => e.2.2).sum = 100) ∧
    (∀ rk, rk ∉ (ctPairs df).map Prod.fst →
      (qualityPct df).filter (fun e => decide (e.1 = rk)) = []) := by
  constructor
  · intro rk hrk
    have hrk' : rk ∈ ctRowKeys (ctPairs df) := mem_sortedUnique.mpr hrk
    rw [qualityPct_filter_row df rk hrk', List.map_map]
    have hcomp : ((fun e : String × String × ℚ => e.2.2) ∘
        fun c => (rk, c, ctPct (ctPairs df) rk c)) =
          fun c => ctPct (ctPairs df) rk c := rfl
    rw [hcomp]
    have hT0 : 0 < ctRowTotal (ctPairs df) rk := by
      obtain ⟨p, hp, hp1⟩ := List.mem_map.mp hrk
      rw [ctRowTotal, List.length_pos]
      exact List.ne_nil_of_mem (List.mem_filter.mpr ⟨hp, by simp [hp1]⟩)
    have hTne : ((ctRowTotal (ctPairs df) rk : ℕ) : ℚ) ≠ 0 :=
      Nat.cast_ne_zero.mpr hT0.ne'
    have hterm : ∀ c, ctPct (ctPairs df) rk c =
        (100 / ((ctRowTotal (ctPairs df) rk : ℕ) : ℚ)) *
          ((ctCount (ctPairs df) rk c : ℕ) : ℚ) := by
      intro c
      rw [ctPct]
      field_simp
      ring
    rw [List.map_congr_left fun c _ => hterm c, List.sum_map_mul_left]
    have hcast : ((ctColKeys (ctPairs df)).map
        fun c => ((ctCount (ctPairs df) rk c : ℕ) : ℚ)).sum =
          ((ctRowTotal (ctPairs df) rk : ℕ) : ℚ) := by
      rw [← sum_ctCount (ctPairs df) rk, Nat.cast_list_sum, List.map_map]
      rfl
    rw [hcast]
    field_simp
  · intro rk hrk
    exact qualityPct_filter_row_absent df rk fun hmem => hrk (mem_sortedUnique.mp hmem)

set_option maxRecDepth 40000 in
theorem C7_witness :
    (((qualityPct hcTableC7).filter fun e => decide (e.1 = "yes")).map
        fun e => e.2.2).sum = 100 ∧
    (qualityPct hcTableC7).filter (fun e => decide (e.1 = "maybe")) = [] :=
  ⟨(C7_crosstab_rows_sum_100 hcTableC7).1 "yes" (by with_unfolding_all decide),
   (C7_crosstab_rows_sum_100 hcTableC7).2 "maybe" (by with_unfolding_all decide)⟩

/-- C8: after top-N-with-overflow bucketing of the publisher dimension,
every row's bucketed value lies in the candidate set (the top-ten names
together with the catch-all), each row falls in exactly one bucket, and
the bucket sizes add up to the whole table: the buckets partition it. -/
theorem C8_bucket_partition (t : List VgRow) :
    (∀ r ∈ t, publisherFiltered (topPublishers t) r.publisher ∈ vgPublisherOptions t) ∧
    (∀ r ∈ t, ((vgPublisherOptions t).countP fun v =>
        decide (publisherFiltered (topPublishers t) r.publisher = v)) = 1) ∧
    ((vgPublisherOptions t).map fun v =>
        (t.filter fun r =>
          decide (publisherFiltered (topPublishers t) r.publisher = v)).length).sum
      = t.length := by
  have hnd : (vgPublisherOptions t).Nodup := nodup_sortedUnique _
  have hmem : ∀ p : Option String,
      publisherFiltered (topPublishers t) p ∈ vgPublisherOptions t := by
    intro p
    rw [vgPublisherOptions, mem_sortedUnique]
    cases p with
    | none => simp [publisherFiltered]
    | some x =>
      by_cases hx : x ∈ topPublishers t
      · simp [publisherFiltered, hx]
      · simp [publisherFiltered, hx]
  exact ⟨fun r _ => hmem r.publisher,
    fun r _ => countP_self_eq_one hnd (hmem r.publisher),
    sum_bucket_lengths t _ _ hnd fun r _ => hmem r.publisher⟩

set_option maxRecDepth 40000 in
theorem C8_witness :
    publisherFiltered (topPublishers vgTableC8)
        (VgRow.publisher ⟨some 2001, some "Sports", none, some 2⟩) ∈
      vgPublisherOptions vgTableC8 ∧
    ((vgPublisherOptions vgTableC8).countP fun v =>
      decide (publisherFiltered (topPublishers vgTableC8)
        (VgRow.publisher ⟨some 2001, some "Sports", none, some 2⟩) = v)) = 1 ∧
    ((vgPublisherOptions vgTableC8).map fun v =>
        (vgTableC8.filter fun r =>
          decide (publisherFiltered (topPublishers vgTableC8) r.publisher = v)).length).sum
      = vgTableC8.length :=
  ⟨(C8_bucket_partition vgTableC8).1 ⟨some 2001, some "Sports", none, some 2⟩
      (by with_unfolding_all decide),
   (C8_bucket_partition vgTableC8).2.1 ⟨some 2001, some "Sports", none, some 2⟩
      (by with_unfolding_all decide),
   (C8_bucket_partition vgTableC8).2.2⟩

/-- C10: a row whose publisher is missing is bucketed into the catch-all
"Others" rather than excluded: every top-ten name stems from some row's
present publisher (the group-by that ranks publishers drops missing
keys, so a missing publisher is never a top-ten name), the missing
publisher maps to "Others", "Others" is among the selectable candidate
values, and the row is counted in the "Others" bucket. -/
theorem C10_missing_publisher_others (t : List VgRow) (r : VgRow)
    (hr : r ∈ t) (hp : r.publisher = none) :
    publisherFiltered (topPublishers t) r.publisher = "Others" ∧
    "Others" ∈ vgPublisherOptions t ∧
    r ∈ (t.filter fun x =>
      decide (publisherFiltered (topPublishers t) x.publisher = "Others")) ∧
    ∀ p ∈ topPublishers t, ∃ x ∈ t, x.publisher = some p := by
  have hbucket : publisherFiltered (topPublishers t) r.publisher = "Others" := by
    rw [hp]
    rfl
  refine ⟨hbucket, ?_, ?_, ?_⟩
  · rw [vgPublisherOptions, mem_sortedUnique]
    simp
  · exact List.mem_filter.mpr ⟨hr, by simp [hbucket]⟩
  · intro p hptop
    rw [topPublishers] at hptop
    obtain ⟨pr, hpr, hpr1⟩ := List.mem_map.mp hptop
    have hpr2 : pr ∈ List.insertionSort (fun a b : String × ℚ => b.2 ≤ a.2)
        (publisherSums t) := List.take_subset 10 _ hpr
    have hpr3 : pr ∈ publisherSums t :=
      (List.perm_insertionSort _ _).mem_iff.mp hpr2
    rw [publisherSums] at hpr3
    obtain ⟨q, hq, hq1⟩ := List.mem_map.mp hpr3
    have hq2 : q ∈ t.filterMap (·.publisher) := mem_sortedUnique.mp hq
    obtain ⟨x, hx, hx1⟩ := List.mem_filterMap.mp hq2
    refine ⟨x, hx, ?_⟩
    rw [hx1, ← hpr1, ← hq1]

set_option maxRecDepth 40000 in
theorem C10_witness :
    publisherFiltered (topPublishers vgTableC8)
        (VgRow.publisher ⟨some 2001, some "Sports", none, some 2⟩) = "Others" ∧
    "Others" ∈ vgPublisherOptions vgTableC8 ∧
    (⟨some 2001, some "Sports", none, some 2⟩ : VgRow) ∈
      (vgTableC8.filter fun x =>
        decide (publisherFiltered (topPublishers vgTableC8) x.publisher = "Others")) ∧
    ∀ p ∈ topPublishers vgTableC8, ∃ x ∈ vgTableC8, x.publisher = some p :=
  C10_missing_publisher_others vgTableC8 ⟨some 2001, some "Sports", none, some 2⟩
    (by with_unfolding_all decide) (by with_unfolding_all decide)
